import Mathlib

/-!
Verification of the TDM slave frame-exchange engine
(`modules/i2s/src/tdm_slave.c`, `modules/i2s/api/tdm.h`).

The development shallowly embeds the engine's pure data transformations and
its control structure:

* the 16-bit bit packer (`OUT16` / `IN16` assembly macros, built from the
  XS3 `zip`, `unzip` and `bitrev` instructions) as functions on `Nat`
  representing 32-bit machine registers (values taken mod 2^32 / 2^16
  explicitly where the hardware truncates);
* `commit_buffers` as a pure transformer of a buffer-selector state;
* `tdm_isr` (the frame interrupt handler) as a transformer of the working
  input buffer together with the list of ports it reads and the trigger
  arithmetic it performs;
* `preload_data` and the trigger-arming arithmetic of `tdm_main_loop` as
  timestamp functions;
* `tdm_main_loop` itself as an event-trace function driven by an oracle of
  `restart_check` results, with fuel standing in for unbounded iteration;
* `tdm_slave`'s construction-time assertions as a guard on a start-up trace.
-/

namespace TdmSlave

/-! ## Bit reversal (the XS3 `bitrev` instruction)

`bitrevAux n x` reverses the low `n` bits of `x` (the least significant bit
of `x` becomes bit `n-1` of the result). -/

def bitrevAux : Nat → Nat → Nat
  | 0, _ => 0
  | n + 1, x => x % 2 * 2 ^ n + bitrevAux n (x / 2)

/-- `bitrev` on a 32-bit register: the operand is a 32-bit value. -/
def bitrev32 (x : Nat) : Nat := bitrevAux 32 (x % 2 ^ 32)

theorem bitrevAux_lt (n x : Nat) : bitrevAux n x < 2 ^ n := by
  induction n generalizing x with
  | zero => simp [bitrevAux]
  | succ n ih =>
    have h1 : bitrevAux n (x / 2) < 2 ^ n := ih (x / 2)
    have h2 : x % 2 ≤ 1 := by omega
    have h3 : x % 2 * 2 ^ n ≤ 1 * 2 ^ n := Nat.mul_le_mul_right _ h2
    have h4 : (2 : Nat) ^ (n + 1) = 2 ^ n * 2 := pow_succ 2 n
    simp only [bitrevAux]
    omega

theorem bitrevAux_mod (n x : Nat) : bitrevAux n (x % 2 ^ n) = bitrevAux n x := by
  induction n generalizing x with
  | zero => simp [bitrevAux]
  | succ n ih =>
    have hdvd : (2 : Nat) ∣ 2 ^ (n + 1) := dvd_pow_self 2 (Nat.succ_ne_zero n)
    have h1 : x % 2 ^ (n + 1) % 2 = x % 2 := Nat.mod_mod_of_dvd x hdvd
    have h2 : x % 2 ^ (n + 1) / 2 = x / 2 % 2 ^ n := by
      have := Nat.div_mod_eq_mod_mul_div x 2 (2 ^ n)
      have hp : (2 : Nat) * 2 ^ n = 2 ^ (n + 1) := (pow_succ' 2 n).symm
      rw [hp] at this
      omega
    simp only [bitrevAux, h1, h2, ih]

/-- Peeling the top bit instead of the bottom bit. -/
theorem bitrevAux_succ_top (n x : Nat) :
    bitrevAux (n + 1) x = 2 * bitrevAux n (x % 2 ^ n) + x / 2 ^ n % 2 := by
  induction n generalizing x with
  | zero => simp [bitrevAux]
  | succ n ih =>
    have hdvd : (2 : Nat) ∣ 2 ^ (n + 1) := dvd_pow_self 2 (Nat.succ_ne_zero n)
    have h1 : x % 2 ^ (n + 1) % 2 = x % 2 := Nat.mod_mod_of_dvd x hdvd
    have h2 : x % 2 ^ (n + 1) / 2 = x / 2 % 2 ^ n := by
      have := Nat.div_mod_eq_mod_mul_div x 2 (2 ^ n)
      have hp : (2 : Nat) * 2 ^ n = 2 ^ (n + 1) := (pow_succ' 2 n).symm
      rw [hp] at this
      omega
    have h3 : x / 2 / 2 ^ n = x / 2 ^ (n + 1) := by
      have h := Nat.div_div_eq_div_mul x 2 (2 ^ n)
      have hp : (2 : Nat) * 2 ^ n = 2 ^ (n + 1) := (pow_succ' 2 n).symm
      rw [hp] at h
      exact h
    calc bitrevAux (n + 2) x
      = x % 2 * 2 ^ (n + 1) + bitrevAux (n + 1) (x / 2) := rfl
    _ = x % 2 * 2 ^ (n + 1) + (2 * bitrevAux n (x / 2 % 2 ^ n) + x / 2 / 2 ^ n % 2) := by
        rw [ih]
    _ = 2 * (x % 2 * 2 ^ n + bitrevAux n (x / 2 % 2 ^ n)) + x / 2 ^ (n + 1) % 2 := by
        rw [h3]; ring_nf
    _ = 2 * bitrevAux (n + 1) (x % 2 ^ (n + 1)) + x / 2 ^ (n + 1) % 2 := by
        simp only [bitrevAux, h1, h2]

theorem bitrevAux_involutive (n : Nat) :
    ∀ x, x < 2 ^ n → bitrevAux n (bitrevAux n x) = x := by
  induction n with
  | zero => intro x hx; interval_cases x; rfl
  | succ n ih =>
    intro x hx
    have hr : bitrevAux n (x / 2) < 2 ^ n := bitrevAux_lt n (x / 2)
    have hxdiv : x / 2 < 2 ^ n := by
      have hp : (2 : Nat) ^ (n + 1) = 2 ^ n * 2 := pow_succ 2 n
      omega
    have hmod : (x % 2 * 2 ^ n + bitrevAux n (x / 2)) % 2 ^ n = bitrevAux n (x / 2) := by
      rw [Nat.mul_comm, Nat.mul_add_mod, Nat.mod_eq_of_lt hr]
    have hdiv : (x % 2 * 2 ^ n + bitrevAux n (x / 2)) / 2 ^ n = x % 2 := by
      rw [Nat.mul_comm, Nat.mul_add_div (Nat.pos_pow_of_pos n (by norm_num)),
          Nat.div_eq_of_lt hr, Nat.add_zero]
    calc bitrevAux (n + 1) (bitrevAux (n + 1) x)
      = bitrevAux (n + 1) (x % 2 * 2 ^ n + bitrevAux n (x / 2)) := rfl
    _ = 2 * bitrevAux n ((x % 2 * 2 ^ n + bitrevAux n (x / 2)) % 2 ^ n)
          + (x % 2 * 2 ^ n + bitrevAux n (x / 2)) / 2 ^ n % 2 := bitrevAux_succ_top ..
    _ = 2 * bitrevAux n (bitrevAux n (x / 2)) + x % 2 % 2 := by rw [hmod, hdiv]
    _ = 2 * (x / 2) + x % 2 := by rw [ih _ hxdiv, Nat.mod_mod_of_dvd _ dvd_rfl]
    _ = x := by omega

theorem bitrev32_lt (x : Nat) : bitrev32 x < 2 ^ 32 := bitrevAux_lt 32 _

theorem bitrev32_involutive (x : Nat) : bitrev32 (bitrev32 x) = x % 2 ^ 32 := by
  unfold bitrev32
  rw [Nat.mod_eq_of_lt (bitrevAux_lt 32 _),
      bitrevAux_involutive 32 _ (Nat.mod_lt x (by norm_num))]

/-! ## 16-bit zip / unzip (the XS3 `zip`/`unzip` instructions with `s = 4`)

With a chunk size of `2^4 = 16` bits, `zip` of the register pair
`(X, Y) = ([a,b],[c,d])` (16-bit chunks, most significant first) forms the
64-bit interleave `[a,c,b,d]` and returns `([a,c],[b,d])`; `unzip` forms
`[a,b,c,d]` and deals alternate chunks out to `([a,c],[b,d])`.  Registers
hold 32-bit values, so each operand is read mod `2^32`. -/

/-- Low 16-bit half of a 32-bit register. -/
def lo16 (x : Nat) : Nat := x % 2 ^ 16

/-- High 16-bit half of a 32-bit register. -/
def hi16 (x : Nat) : Nat := x % 2 ^ 32 / 2 ^ 16

/-- `zip x, y, 4`: `([a,b],[c,d]) ↦ ([a,c],[b,d])`. -/
def zip16 (x y : Nat) : Nat × Nat :=
  (hi16 x * 2 ^ 16 + hi16 y, lo16 x * 2 ^ 16 + lo16 y)

/-- `unzip x, y, 4`: `([a,b],[c,d]) ↦ ([a,c],[b,d])` (for 16-bit chunks the
even/odd chunk deal coincides with the half interleave of `zip`). -/
def unzip16 (x y : Nat) : Nat × Nat :=
  (hi16 x * 2 ^ 16 + hi16 y, lo16 x * 2 ^ 16 + lo16 y)

/-- The `OUT16(X, Y)` macro: `zip %X, %Y, 4` then `bitrev %Y, %Y`.
Returns the final register pair `(X, Y)`; the packed word driven onto the
port is the second component. -/
def out16 (x y : Nat) : Nat × Nat :=
  ((zip16 x y).1, bitrev32 (zip16 x y).2)

/-- The `IN16(X, Y)` macro: `bitrev %Y, %Y` then `unzip %X, %Y, 4`.
Returns the final register pair `(X, Y)`. -/
def in16 (x y : Nat) : Nat × Nat :=
  unzip16 x (bitrev32 y)

/-- `OUT16` packing as used by `preload_data`: `tmp = channel[0]`,
`out = channel[1]`, `OUT16(tmp, out)`, then `out` goes to the port. -/
def pack16 (ch0 ch1 : Nat) : Nat := (out16 ch0 ch1).2

/-- `IN16` unpacking as used by `tdm_isr`: `d0 = 0`, `d1 = port word`,
`IN16(d0, d1)`, then `channel[0] = d0` and `channel[1] = d1`. -/
def unpack16 (w : Nat) : Nat × Nat := in16 0 w

theorem lo16_lt (x : Nat) : lo16 x < 2 ^ 16 := Nat.mod_lt x (by norm_num)

theorem hi16_lt (x : Nat) : hi16 x < 2 ^ 16 := by
  have h : x % 2 ^ 32 < 2 ^ 32 := Nat.mod_lt x (by norm_num)
  exact Nat.div_lt_of_lt_mul (by norm_num at h ⊢; omega)

theorem interleave_lt {a b : Nat} (ha : a < 2 ^ 16) (hb : b < 2 ^ 16) :
    a * 2 ^ 16 + b < 2 ^ 32 := by
  have : a * 2 ^ 16 ≤ (2 ^ 16 - 1) * 2 ^ 16 := Nat.mul_le_mul_right _ (by omega)
  norm_num at this ⊢
  omega

theorem hi16_interleave {a b : Nat} (ha : a < 2 ^ 16) (hb : b < 2 ^ 16) :
    hi16 (a * 2 ^ 16 + b) = a := by
  unfold hi16
  rw [Nat.mod_eq_of_lt (interleave_lt ha hb), Nat.mul_comm a,
      Nat.mul_add_div (by norm_num), Nat.div_eq_of_lt hb, Nat.add_zero]

theorem lo16_interleave {a b : Nat} (hb : b < 2 ^ 16) :
    lo16 (a * 2 ^ 16 + b) = b := by
  unfold lo16
  rw [Nat.mul_comm a, Nat.mul_add_mod, Nat.mod_eq_of_lt hb]

/-- C1: the claim as stated.  `unpack16 (pack16 x0 x1)` recovers the low
16 bits of each sample. -/
theorem unpack16_pack16 (x0 x1 : Nat) :
    unpack16 (pack16 x0 x1) = (x0 % 2 ^ 16, x1 % 2 ^ 16) := by
  have hA : lo16 x0 < 2 ^ 16 := lo16_lt x0
  have hB : lo16 x1 < 2 ^ 16 := lo16_lt x1
  have hlt : lo16 x0 * 2 ^ 16 + lo16 x1 < 2 ^ 32 := interleave_lt hA hB
  unfold unpack16 pack16 in16 out16
  have hrev : bitrev32 (bitrev32 (zip16 x0 x1).2) = lo16 x0 * 2 ^ 16 + lo16 x1 := by
    show bitrev32 (bitrev32 (lo16 x0 * 2 ^ 16 + lo16 x1)) = _
    rw [bitrev32_involutive, Nat.mod_eq_of_lt hlt]
  unfold unzip16
  rw [hrev, hi16_interleave hA hB, lo16_interleave hB]
  show (hi16 0 * 2 ^ 16 + lo16 x0, lo16 0 * 2 ^ 16 + lo16 x1) = _
  simp [hi16, lo16]

end TdmSlave

/-- C1: For every pair of 32-bit samples `(x0, x1)`, `IN16` (bit-reverse then
unzip with stride 4) applied to the machine word produced by `OUT16` (zip
with stride 4 then bit-reverse) recovers `x0` and `x1` exactly in their low
16 bits: `unpack16 (pack16 x0 x1) = (x0 % 2^16, x1 % 2^16)`. -/
theorem C1_pack_unpack_roundtrip (x0 x1 : Nat) :
    TdmSlave.unpack16 (TdmSlave.pack16 x0 x1) = (x0 % 2 ^ 16, x1 % 2 ^ 16) :=
  TdmSlave.unpack16_pack16 x0 x1

namespace TdmSlave

/-! ## Double-buffer commit (`commit_buffers`)

The working/safe buffer pointers are modelled by the index (0 or 1) of the
buffer they address within each direction's two-buffer pair; the C `static
uint8_t current_buf_no` is the `sel` field. -/

structure BufState where
  sel : Nat
  working_in : Nat
  working_out : Nat
  safe_in : Nat
  safe_out : Nat

/-- `commit_buffers`: working pointers take the current selector's buffer,
the selector is flipped with `^= 0b1`, and the safe pointers take the
flipped selector's buffer. -/
def commit_buffers (s : BufState) : BufState :=
  { sel := s.sel ^^^ 1
    working_in := s.sel
    working_out := s.sel
    safe_in := s.sel ^^^ 1
    safe_out := s.sel ^^^ 1 }

/-- The `BufState` at entry to `tdm_main_loop`: the static selector starts
at 0, the working pointers address `buffer[1]`, the safe pointers
`buffer[0]`. -/
def initialBufState : BufState :=
  { sel := 0, working_in := 1, working_out := 1, safe_in := 0, safe_out := 0 }

/-! ## Timestamp arithmetic

`port_timestamp_t` values are modelled as natural numbers. -/

/-- Number of bits in the port transfer register plus shift register
(default configuration). -/
def TDM_PORT_BUFFER_BITS : Nat := 32

/-- `frame_len = num_chans * num_data_bits` as computed in `tdm_slave`. -/
def frame_len (num_chans num_data_bits : Nat) : Nat := num_chans * num_data_bits

/-- The trigger time `tdm_isr` programs when rescheduling itself:
`now + frame_len`, where `now` is the trigger time just read back. -/
def tdm_isr_next_trigger (now fl : Nat) : Nat := now + fl

/-- The sequence of trigger timestamps produced by repeated ISR firings,
starting from an initial armed time `t0`. -/
def trigger_times (t0 fl : Nat) : Nat → Nat
  | 0 => t0
  | k + 1 => tdm_isr_next_trigger (trigger_times t0 fl k) fl

/-- The first trigger time armed by `tdm_main_loop` after the blocking wait
for a frame-sync edge (also programmed on each input data port). -/
def first_trigger_time (fsync fl off : Nat) : Nat :=
  fsync + fl + off + TDM_PORT_BUFFER_BITS

/-- The scheduled port-output time computed by `preload_data`:
`fsync_time + frame_len + num_bclk_cycles_offset`. -/
def preload_time (fsync fl off : Nat) : Nat := fsync + fl + off

end TdmSlave

/-- C2: After every `commit_buffers` call (from any selector state reachable
from the initial static value 0, i.e. `sel ≤ 1`), the working and safe
pointers of each direction address distinct buffers of that direction's
pair, both directions select the same buffer index, the single shared 1-bit
selector is flipped exactly once, stays a 1-bit value, and a further commit
swaps working and safe roles. -/
theorem C2_commit_buffers_invariant (s : TdmSlave.BufState) (hsel : s.sel ≤ 1) :
    (TdmSlave.commit_buffers s).working_in ≠ (TdmSlave.commit_buffers s).safe_in
    ∧ (TdmSlave.commit_buffers s).working_out ≠ (TdmSlave.commit_buffers s).safe_out
    ∧ (TdmSlave.commit_buffers s).working_in = (TdmSlave.commit_buffers s).working_out
    ∧ (TdmSlave.commit_buffers s).safe_in = (TdmSlave.commit_buffers s).safe_out
    ∧ (TdmSlave.commit_buffers s).working_in ≤ 1
    ∧ (TdmSlave.commit_buffers s).safe_in ≤ 1
    ∧ (TdmSlave.commit_buffers s).sel = s.sel ^^^ 1
    ∧ (TdmSlave.commit_buffers s).sel ≠ s.sel
    ∧ (TdmSlave.commit_buffers s).sel ≤ 1
    ∧ (TdmSlave.commit_buffers (TdmSlave.commit_buffers s)).working_in
        = (TdmSlave.commit_buffers s).safe_in
    ∧ (TdmSlave.commit_buffers (TdmSlave.commit_buffers s)).safe_in
        = (TdmSlave.commit_buffers s).working_in := by
  rcases Nat.le_one_iff_eq_zero_or_eq_one.mp hsel with h | h <;>
    simp [TdmSlave.commit_buffers, h]

/-- Witness for C2 at the engine's initial buffer state. -/
theorem C2_commit_buffers_invariant_witness :
    (TdmSlave.commit_buffers TdmSlave.initialBufState).working_in
      ≠ (TdmSlave.commit_buffers TdmSlave.initialBufState).safe_in :=
  (C2_commit_buffers_invariant TdmSlave.initialBufState (by decide)).1

/-- C4: Every next-trigger timestamp computed by `tdm_isr` equals the
previous trigger timestamp plus one frame length
(`frame_len = num_chans * num_data_bits`); the resulting timestamp sequence
is `t0 + k * frame_len` and is strictly monotone, so timestamps never
decrease or skip a frame. -/
theorem C4_trigger_monotone (t0 nc ndb : Nat) (h1 : 0 < nc) (h2 : 0 < ndb) :
    (∀ k, TdmSlave.trigger_times t0 (TdmSlave.frame_len nc ndb) (k + 1)
        = TdmSlave.trigger_times t0 (TdmSlave.frame_len nc ndb) k
            + TdmSlave.frame_len nc ndb)
    ∧ (∀ k, TdmSlave.trigger_times t0 (TdmSlave.frame_len nc ndb) k
        = t0 + k * TdmSlave.frame_len nc ndb)
    ∧ StrictMono (TdmSlave.trigger_times t0 (TdmSlave.frame_len nc ndb)) := by
  have hfl : 0 < TdmSlave.frame_len nc ndb := Nat.mul_pos h1 h2
  refine ⟨fun k => rfl, fun k => ?_, ?_⟩
  · induction k with
    | zero => simp [TdmSlave.trigger_times]
    | succ k ih =>
      simp only [TdmSlave.trigger_times, TdmSlave.tdm_isr_next_trigger, ih]
      ring
  · apply strictMono_nat_of_lt_succ
    intro k
    simp only [TdmSlave.trigger_times, TdmSlave.tdm_isr_next_trigger]
    omega

/-- Witness for C4: the fourth trigger of a 16-channel, 16-bit frame armed
at time 100. -/
theorem C4_trigger_monotone_witness :
    TdmSlave.trigger_times 100 (TdmSlave.frame_len 16 16) 3
      = 100 + 3 * TdmSlave.frame_len 16 16 :=
  (C4_trigger_monotone 100 16 16 (by decide) (by decide)).2.1 3

/-- C7 counterexample: the first armed trigger time is NOT
`fsync + frame_len + offset`; at `fsync = 0`, `frame_len = 256`,
`offset = 0` the code programs 288, not 256, because it adds the
`TDM_PORT_BUFFER_BITS` margin. -/
theorem C7_counterexample :
    TdmSlave.first_trigger_time 0 256 0 ≠ 0 + 256 + 0 := by decide

/-- C7 (amended): the first armed trigger time equals the captured
frame-sync timestamp plus the frame length plus the configured offset
**plus the fixed `TDM_PORT_BUFFER_BITS` margin (32)**, and it is the base
of the ISR's subsequent trigger sequence. -/
theorem C7_first_trigger_time (fsync fl off : Nat) :
    TdmSlave.first_trigger_time fsync fl off = fsync + fl + off + 32
    ∧ TdmSlave.TDM_PORT_BUFFER_BITS = 32
    ∧ TdmSlave.trigger_times (TdmSlave.first_trigger_time fsync fl off) fl 0
        = fsync + fl + off + TdmSlave.TDM_PORT_BUFFER_BITS :=
  ⟨rfl, rfl, rfl⟩

/-- C8 counterexample: changing the offset from 0 to 5 shifts the preload
timestamp by exactly 5 cycles, but it is not the only timing change: the
armed ISR/input-port trigger time changes as well (by the same 5 cycles).
Shown at `fsync = 0`, `frame_len = 256`. -/
theorem C8_counterexample :
    TdmSlave.preload_time 0 256 5 = TdmSlave.preload_time 0 256 0 + 5
    ∧ TdmSlave.first_trigger_time 0 256 5 ≠ TdmSlave.first_trigger_time 0 256 0 := by
  decide

/-- C8 (amended): for two runs identical except that the configured offset
is `N` in one and 0 in the other, the output preload timestamp shifts by
exactly `N` cycles, and the armed ISR/input-port trigger times shift by the
same `N` cycles; both shifts are uniform in the frame-sync time and frame
length. -/
theorem C8_offset_shift (fsync fl n : Nat) :
    TdmSlave.preload_time fsync fl n = TdmSlave.preload_time fsync fl 0 + n
    ∧ TdmSlave.first_trigger_time fsync fl n
        = TdmSlave.first_trigger_time fsync fl 0 + n := by
  constructor <;>
    simp only [TdmSlave.preload_time, TdmSlave.first_trigger_time,
      TdmSlave.TDM_PORT_BUFFER_BITS] <;>
    omega

namespace TdmSlave

/-! ## The frame interrupt handler's buffer effect (`tdm_isr`)

A sample buffer is modelled as a function from (line, channel) to the
stored 32-bit value.  `tdm_isr`'s input loop contains an unconditional
`break`, so at most its first iteration (`in_line = 0`) executes: one word
is read from input line 0's port and unpacked into channels 0 and 1 of
line 0 of the working input buffer. -/

def SampleBuffer : Type := Nat → Nat → Nat

/-- The working input buffer after one `tdm_isr` firing, given the number
of configured input lines and the word each input port would deliver. -/
def tdm_isr_buffer (num_in : Nat) (port_word : Nat → Nat) (buf : SampleBuffer) :
    SampleBuffer :=
  if num_in = 0 then buf
  else fun l c =>
    if l = 0 then
      if c = 0 then (in16 0 (port_word 0)).1
      else if c = 1 then (in16 0 (port_word 0)).2
      else buf l c
    else buf l c

/-- The input lines whose ports `tdm_isr` performs a `port_in` on during
one firing (the loop `break`s after line 0). -/
def tdm_isr_lines_read (num_in : Nat) : List Nat :=
  if num_in = 0 then [] else [0]

/-- The packed words `preload_data` schedules for output, one per output
line, each built by `OUT16` from channels 0 and 1 of that line of the
working output buffer. -/
def preload_words (num_out : Nat) (buf : SampleBuffer) : List Nat :=
  (List.range num_out).map fun l => pack16 (buf l 0) (buf l 1)

/-- A sample buffer with all entries zero (the `memset` state at
`tdm_main_loop` entry). -/
def zeroBuffer : SampleBuffer := fun _ _ => 0

/-- Uniform port stimulus: every input port delivers the same word `w`. -/
def constPorts (w : Nat) : Nat → Nat := fun _ => w

theorem tdm_isr_buffer_untouched (num_in : Nat) (pw : Nat → Nat)
    (buf : SampleBuffer) (l c : Nat) (h : 1 ≤ l ∨ 2 ≤ c) :
    tdm_isr_buffer num_in pw buf l c = buf l c := by
  unfold tdm_isr_buffer
  rcases h with h | h
  · split
    · rfl
    · have hl : ¬ l = 0 := by omega
      simp [hl]
  · split
    · rfl
    · have hc0 : ¬ c = 0 := by omega
      have hc1 : ¬ c = 1 := by omega
      by_cases hl : l = 0 <;> simp [hl, hc0, hc1]

end TdmSlave

/-- C3 counterexample: with two configured input lines and every port
delivering the word `32768` (which unpacks to channel values `(1, 0)`),
the claim requires line 1, channel 0 of the working input buffer to become
1; the ISR leaves it at 0 because its input loop `break`s after line 0. -/
theorem C3_counterexample :
    TdmSlave.tdm_isr_buffer 2 (TdmSlave.constPorts 32768) TdmSlave.zeroBuffer 1 0
      ≠ (TdmSlave.in16 0 (TdmSlave.constPorts 32768 1)).1 := by
  decide

/-- C3 (amended): on every firing with at least one configured input line,
`tdm_isr` reads exactly one machine word, from input line 0's port, and
unpacks it via `IN16` into channel slots 0 and 1 of line 0 of the working
input buffer; no other input line is read and no other buffer entry is
modified. -/
theorem C3_isr_reads_line_zero (num_in : Nat) (pw : Nat → Nat)
    (buf : TdmSlave.SampleBuffer) (h : 0 < num_in) :
    TdmSlave.tdm_isr_lines_read num_in = [0]
    ∧ TdmSlave.tdm_isr_buffer num_in pw buf 0 0 = (TdmSlave.in16 0 (pw 0)).1
    ∧ TdmSlave.tdm_isr_buffer num_in pw buf 0 1 = (TdmSlave.in16 0 (pw 0)).2
    ∧ (∀ l c, 1 ≤ l ∨ 2 ≤ c →
        TdmSlave.tdm_isr_buffer num_in pw buf l c = buf l c) := by
  have hn : ¬ num_in = 0 := by omega
  refine ⟨by simp [TdmSlave.tdm_isr_lines_read, hn], ?_, ?_,
    fun l c hlc => TdmSlave.tdm_isr_buffer_untouched num_in pw buf l c hlc⟩ <;>
    simp [TdmSlave.tdm_isr_buffer, hn]

/-- Witness for C3 (amended): one input line, port word 32768, channel 0 of
line 0 receives the unpacked high half. -/
theorem C3_isr_reads_line_zero_witness :
    TdmSlave.tdm_isr_buffer 1 (TdmSlave.constPorts 32768) TdmSlave.zeroBuffer 0 0
      = (TdmSlave.in16 0 (TdmSlave.constPorts 32768 0)).1 :=
  (C3_isr_reads_line_zero 1 (TdmSlave.constPorts 32768) TdmSlave.zeroBuffer
    (by decide)).2.1

/-- C10: in every frame the transport path moves only the first two channel
slots: `preload_data` schedules exactly one packed word per output line,
each word is `OUT16` of channels 0 and 1 of that line (so the words depend
on nothing else in the buffer), and `tdm_isr` leaves every buffer entry
with channel index ≥ 2 or line index ≥ 1 unchanged. -/
theorem C10_transport_touches_first_two_channels (num_in num_out : Nat)
    (pw : Nat → Nat) (buf obuf : TdmSlave.SampleBuffer) :
    (TdmSlave.preload_words num_out obuf).length = num_out
    ∧ (∀ l, l < num_out →
        (TdmSlave.preload_words num_out obuf)[l]?
          = some (TdmSlave.pack16 (obuf l 0) (obuf l 1)))
    ∧ (∀ obuf2 : TdmSlave.SampleBuffer,
        (∀ l, l < num_out → obuf l 0 = obuf2 l 0 ∧ obuf l 1 = obuf2 l 1) →
        TdmSlave.preload_words num_out obuf = TdmSlave.preload_words num_out obuf2)
    ∧ (∀ l c, 1 ≤ l ∨ 2 ≤ c →
        TdmSlave.tdm_isr_buffer num_in pw buf l c = buf l c) := by
  refine ⟨by simp [TdmSlave.preload_words], fun l hl => ?_, fun obuf2 hb => ?_,
    fun l c hlc => TdmSlave.tdm_isr_buffer_untouched num_in pw buf l c hlc⟩
  · simp [TdmSlave.preload_words, List.getElem?_map, hl]
  · unfold TdmSlave.preload_words
    apply List.map_congr_left
    intro l hl
    rw [List.mem_range] at hl
    rw [(hb l hl).1, (hb l hl).2]

/-- Witness for C10: two output lines over the zero buffer give exactly two
scheduled words. -/
theorem C10_transport_touches_first_two_channels_witness :
    (TdmSlave.preload_words 2 TdmSlave.zeroBuffer).length = 2 :=
  (C10_transport_touches_first_two_channels 1 2 (TdmSlave.constPorts 0)
    TdmSlave.zeroBuffer TdmSlave.zeroBuffer).1

namespace TdmSlave

/-! ## The main loop as an event trace (`tdm_main_loop`)

The loop is driven by the `restart_check` oracle: a list of the values the
callback returns on successive inner-loop iterations.  `fuel` bounds the
number of outer-loop iterations (the C loop may not terminate, e.g. after
`TDM_RESTART` the `restart` variable is never reset, so the outer loop
re-initialises forever).  Events record, in order, the externally
observable actions of the loop. -/

inductive tdm_restart where
  | TDM_NO_RESTART
  | TDM_RESTART
  | TDM_SHUTDOWN
deriving DecidableEq, Repr

inductive Ev where
  | ev_init
  | ev_prime
  | ev_commit
  | ev_fsync
  | ev_arm
  | ev_preload
  | ev_restart_check (r : tdm_restart)
  | ev_process
deriving DecidableEq, Repr

/-- Occurrence count of an element in a list. -/
def countEv {α : Type} [DecidableEq α] (e : α) : List α → Nat
  | [] => 0
  | x :: xs => (if x = e then 1 else 0) + countEv e xs

/-- One inner-loop iteration of `tdm_main_loop`: wait for frame sync, call
`restart_check`, call `process`, `commit_buffers`, `preload_data`. -/
def frameEvs (r : tdm_restart) : List Ev :=
  [Ev.ev_fsync, Ev.ev_restart_check r, Ev.ev_process, Ev.ev_commit, Ev.ev_preload]

/-- The start of one outer-loop iteration: `init` callback, the priming
`process` call when `num_out > 0`, `commit_buffers`, the blocking wait for
a frame-sync edge, arming the interrupt trigger, `preload_data`. -/
def initEvs (num_out : Nat) : List Ev :=
  [Ev.ev_init] ++ (if 0 < num_out then [Ev.ev_prime] else [])
    ++ [Ev.ev_commit, Ev.ev_fsync, Ev.ev_arm, Ev.ev_preload]

/-- The inner `while (restart == TDM_NO_RESTART)` loop: returns the events
emitted, the final value of `restart`, and the unconsumed oracle. -/
def innerLoop : List tdm_restart → List Ev × tdm_restart × List tdm_restart
  | [] => ([], tdm_restart.TDM_NO_RESTART, [])
  | r :: rest =>
    if r = tdm_restart.TDM_NO_RESTART then
      let t := innerLoop rest
      (frameEvs r ++ t.1, t.2.1, t.2.2)
    else (frameEvs r, r, rest)

/-- The outer `while (restart != TDM_SHUTDOWN)` loop.  The inner loop body
runs only while `restart` is `TDM_NO_RESTART`; after a `TDM_RESTART` the
variable is never reset, so subsequent outer iterations emit only the
initialisation events. -/
def outerLoop (num_out : Nat) : Nat → tdm_restart → List tdm_restart → List Ev
  | 0, _, _ => []
  | fuel + 1, restart, oracle =>
    if restart = tdm_restart.TDM_SHUTDOWN then []
    else if restart = tdm_restart.TDM_NO_RESTART then
      let t := innerLoop oracle
      initEvs num_out ++ t.1 ++ outerLoop num_out fuel t.2.1 t.2.2
    else
      initEvs num_out ++ outerLoop num_out fuel restart oracle

/-- The whole of `tdm_main_loop`: `restart` starts as `TDM_NO_RESTART`. -/
def tdm_main_loop_trace (num_out fuel : Nat) (oracle : List tdm_restart) : List Ev :=
  outerLoop num_out fuel tdm_restart.TDM_NO_RESTART oracle

/-- `k` frames in which `restart_check` returned `TDM_NO_RESTART`. -/
def framesNoRestart : Nat → List Ev
  | 0 => []
  | k + 1 => frameEvs tdm_restart.TDM_NO_RESTART ++ framesNoRestart k

theorem countEv_append {α : Type} [DecidableEq α] (e : α) (a b : List α) :
    countEv e (a ++ b) = countEv e a + countEv e b := by
  induction a with
  | nil => simp [countEv]
  | cons x xs ih => simp [countEv, ih]; omega

theorem innerLoop_replicate (k : Nat) (junk : List tdm_restart) :
    innerLoop (List.replicate k tdm_restart.TDM_NO_RESTART
        ++ tdm_restart.TDM_SHUTDOWN :: junk)
      = (framesNoRestart k ++ frameEvs tdm_restart.TDM_SHUTDOWN,
         tdm_restart.TDM_SHUTDOWN, junk) := by
  induction k with
  | zero => simp [innerLoop, framesNoRestart]
  | succ k ih =>
    simp [List.replicate_succ, innerLoop, ih, framesNoRestart]

theorem outerLoop_shutdown (num_out fuel : Nat) (oracle : List tdm_restart) :
    outerLoop num_out fuel tdm_restart.TDM_SHUTDOWN oracle = [] := by
  cases fuel <;> simp [outerLoop]

theorem innerLoop_no_init_events (oracle : List tdm_restart) :
    countEv Ev.ev_prime (innerLoop oracle).1 = 0
    ∧ countEv Ev.ev_init (innerLoop oracle).1 = 0 := by
  induction oracle with
  | nil => simp [innerLoop, countEv]
  | cons r rest ih =>
    by_cases h : r = tdm_restart.TDM_NO_RESTART <;>
      simp [innerLoop, h, countEv_append, frameEvs, countEv, ih]

theorem countEv_initEvs_prime (num_out : Nat) :
    countEv Ev.ev_prime (initEvs num_out) = if 0 < num_out then 1 else 0 := by
  by_cases h : 0 < num_out <;> simp [initEvs, countEv, h]

theorem countEv_initEvs_init (num_out : Nat) :
    countEv Ev.ev_init (initEvs num_out) = 1 := by
  by_cases h : 0 < num_out <;> simp [initEvs, countEv, h]

theorem outerLoop_prime_count (num_out : Nat) :
    ∀ (fuel : Nat) (restart : tdm_restart) (oracle : List tdm_restart),
      countEv Ev.ev_prime (outerLoop num_out fuel restart oracle)
        = (if 0 < num_out then 1 else 0)
            * countEv Ev.ev_init (outerLoop num_out fuel restart oracle) := by
  intro fuel
  induction fuel with
  | zero => intro restart oracle; simp [outerLoop, countEv]
  | succ fuel ih =>
    intro restart oracle
    by_cases hs : restart = tdm_restart.TDM_SHUTDOWN
    · simp [outerLoop, hs, countEv]
    · by_cases hn : restart = tdm_restart.TDM_NO_RESTART
      · subst hn
        simp [outerLoop, countEv_append, countEv_initEvs_prime,
          countEv_initEvs_init, (innerLoop_no_init_events oracle).1,
          (innerLoop_no_init_events oracle).2, ih, Nat.mul_add, Nat.mul_one]
        by_cases hp : 0 < num_out <;> simp [hp]
      · simp [outerLoop, hs, hn, countEv_append, countEv_initEvs_prime,
          countEv_initEvs_init, ih, Nat.mul_add, Nat.mul_one]
        by_cases hp : 0 < num_out <;> simp [hp]

end TdmSlave

/-- C5: If `restart_check` returns `TDM_SHUTDOWN` at frame `k` (after `k`
frames of `TDM_NO_RESTART`), the trace of the whole engine — for any
remaining fuel and any further oracle values — equals the initialisation
events followed by exactly `k + 1` frames and nothing else: both loops
terminate and no frame-sync wait, restart check, process call, commit or
preload occurs after frame `k`. -/
theorem C5_shutdown_terminates (num_out fuel k : Nat)
    (junk : List TdmSlave.tdm_restart) (hfuel : 0 < fuel) :
    TdmSlave.tdm_main_loop_trace num_out fuel
        (List.replicate k TdmSlave.tdm_restart.TDM_NO_RESTART
          ++ TdmSlave.tdm_restart.TDM_SHUTDOWN :: junk)
      = TdmSlave.initEvs num_out ++ TdmSlave.framesNoRestart k
          ++ TdmSlave.frameEvs TdmSlave.tdm_restart.TDM_SHUTDOWN := by
  obtain ⟨f, rfl⟩ : ∃ f, fuel = f + 1 := ⟨fuel - 1, by omega⟩
  unfold TdmSlave.tdm_main_loop_trace TdmSlave.outerLoop
  simp [TdmSlave.innerLoop_replicate, TdmSlave.outerLoop_shutdown]

/-- Witness for C5: shutdown at the very first frame with one unit of fuel
and a nonempty residual oracle. -/
theorem C5_shutdown_terminates_witness :
    TdmSlave.tdm_main_loop_trace 1 1
        (List.replicate 0 TdmSlave.tdm_restart.TDM_NO_RESTART
          ++ TdmSlave.tdm_restart.TDM_SHUTDOWN
            :: [TdmSlave.tdm_restart.TDM_NO_RESTART])
      = TdmSlave.initEvs 1 ++ TdmSlave.framesNoRestart 0
          ++ TdmSlave.frameEvs TdmSlave.tdm_restart.TDM_SHUTDOWN :=
  C5_shutdown_terminates 1 1 0 [TdmSlave.tdm_restart.TDM_NO_RESTART] (by decide)

/-- C6 counterexample: with one output line, when `restart_check` returns
`TDM_RESTART` at frame 0 the engine re-enters INIT and performs the priming
`process` call again (the `first_time` flag is set but never read): the
trace contains two priming calls and two INIT entries, refuting
"only on the first entry to INIT — not again after a restart". -/
theorem C6_counterexample :
    TdmSlave.countEv TdmSlave.Ev.ev_prime
        (TdmSlave.tdm_main_loop_trace 1 2 [TdmSlave.tdm_restart.TDM_RESTART]) = 2
    ∧ TdmSlave.countEv TdmSlave.Ev.ev_init
        (TdmSlave.tdm_main_loop_trace 1 2 [TdmSlave.tdm_restart.TDM_RESTART]) = 2 := by
  decide

/-- C6 (amended): the priming `process` invocation happens on **every**
entry to INIT — the first entry and every re-entry after a restart — and on
each entry it happens if and only if `num_out > 0`: in every trace the
number of priming calls equals the number of INIT entries when
`num_out > 0` and is zero when `num_out = 0`, so receive-only
configurations never receive a priming call. -/
theorem C6_prime_iff_outputs (num_out fuel : Nat)
    (oracle : List TdmSlave.tdm_restart) :
    TdmSlave.countEv TdmSlave.Ev.ev_prime
        (TdmSlave.tdm_main_loop_trace num_out fuel oracle)
      = (if 0 < num_out then 1 else 0)
          * TdmSlave.countEv TdmSlave.Ev.ev_init
              (TdmSlave.tdm_main_loop_trace num_out fuel oracle) :=
  TdmSlave.outerLoop_prime_count num_out fuel TdmSlave.tdm_restart.TDM_NO_RESTART oracle

namespace TdmSlave

/-! ## Construction-time checks (`tdm_slave`)

`tdm_slave` asserts the configuration maxima once, before
`tdm_slave_init_ports` and before entering `tdm_main_loop`; a failed
`xassert` is fatal, so nothing after it runs. -/

def TDM_MAX_CHANS : Nat := 16
def TDM_MAX_PORTS : Nat := 4

structure TdmSlaveParams where
  num_out : Nat
  num_in : Nat
  num_chans : Nat
  num_data_bits : Nat

/-- The three `xassert` conditions of `tdm_slave`. -/
def tdm_slave_asserts_ok (p : TdmSlaveParams) : Bool :=
  decide (p.num_chans ≤ TDM_MAX_CHANS) && decide (p.num_in ≤ TDM_MAX_PORTS)
    && decide (p.num_out ≤ TDM_MAX_PORTS)

inductive StartEv where
  | assert_chk
  | port_setup
  | loop_entry
deriving DecidableEq, Repr

/-- The start-up actions of `tdm_slave`: the assertion block runs first and
exactly once; only if it passes do port initialisation and the main loop
follow. -/
def tdm_slave_trace (p : TdmSlaveParams) : List StartEv :=
  if tdm_slave_asserts_ok p then
    [StartEv.assert_chk, StartEv.port_setup, StartEv.loop_entry]
  else [StartEv.assert_chk]

/-- The (line, channel) sample-buffer indices written by one `tdm_isr`
firing. -/
def tdm_isr_indices (num_in : Nat) : List (Nat × Nat) :=
  if num_in = 0 then [] else [(0, 0), (0, 1)]

/-- The (line, channel) sample-buffer indices read by one `preload_data`
call. -/
def preload_indices (num_out : Nat) : List (Nat × Nat) :=
  (List.range num_out).bind fun l => [(l, 0), (l, 1)]

end TdmSlave

/-- C9: `tdm_slave` checks `num_chans ≤ 16`, `num_in ≤ 4`, `num_out ≤ 4`
exactly once, at construction, before any port initialisation or frame
exchange; a violation is fatal (port setup and the main loop never run);
and under these preconditions every sample-buffer index used per frame by
the ISR and by `preload_data` lies within the fixed
`TDM_MAX_PORTS × TDM_MAX_CHANS` bounds. -/
theorem C9_construction_asserts (p : TdmSlave.TdmSlaveParams) :
    TdmSlave.countEv TdmSlave.StartEv.assert_chk (TdmSlave.tdm_slave_trace p) = 1
    ∧ (TdmSlave.tdm_slave_asserts_ok p = false →
        TdmSlave.tdm_slave_trace p = [TdmSlave.StartEv.assert_chk])
    ∧ (TdmSlave.tdm_slave_asserts_ok p = true →
        TdmSlave.tdm_slave_trace p
          = [TdmSlave.StartEv.assert_chk, TdmSlave.StartEv.port_setup,
             TdmSlave.StartEv.loop_entry]
        ∧ ∀ lc ∈ TdmSlave.tdm_isr_indices p.num_in
              ++ TdmSlave.preload_indices p.num_out,
            lc.1 < TdmSlave.TDM_MAX_PORTS ∧ lc.2 < TdmSlave.TDM_MAX_CHANS) := by
  refine ⟨?_, fun h => by simp [TdmSlave.tdm_slave_trace, h], fun h => ⟨?_, ?_⟩⟩
  · by_cases h : TdmSlave.tdm_slave_asserts_ok p <;>
      simp [TdmSlave.tdm_slave_trace, h, TdmSlave.countEv]
  · simp [TdmSlave.tdm_slave_trace, h]
  · have hout : p.num_out ≤ TdmSlave.TDM_MAX_PORTS := by
      simp [TdmSlave.tdm_slave_asserts_ok, Bool.and_eq_true,
        decide_eq_true_eq] at h
      exact h.2
    intro lc hlc
    rw [List.mem_append] at hlc
    rcases hlc with hlc | hlc
    · unfold TdmSlave.tdm_isr_indices at hlc
      split at hlc
      · simp at hlc
      · simp only [List.mem_cons, List.not_mem_nil, or_false] at hlc
        rcases hlc with rfl | rfl <;>
          exact ⟨by norm_num [TdmSlave.TDM_MAX_PORTS],
                 by norm_num [TdmSlave.TDM_MAX_CHANS]⟩
    · unfold TdmSlave.preload_indices at hlc
      rw [List.mem_bind] at hlc
      obtain ⟨l, hl, hmem⟩ := hlc
      rw [List.mem_range] at hl
      simp only [List.mem_cons, List.not_mem_nil, or_false] at hmem
      rcases hmem with rfl | rfl <;>
        exact ⟨by unfold TdmSlave.TDM_MAX_PORTS at hout ⊢; omega,
               by norm_num [TdmSlave.TDM_MAX_CHANS]⟩

/-- Witness for C9: a configuration with five output lines fails the
assertion and only the assertion runs. -/
theorem C9_construction_asserts_witness :
    TdmSlave.tdm_slave_trace ⟨5, 0, 0, 0⟩ = [TdmSlave.StartEv.assert_chk] :=
  (C9_construction_asserts ⟨5, 0, 0, 0⟩).2.1 (by decide)
